import Mathlib

/-!
Verification of the dynamic endpoint reconciliation engine of the
read/write-splitting strategy crate (`monitor_reconcile.rs`, `config.rs`).

The per-tick fusion logic of `MonitorReconcile::report` is embedded as a
pure function returning `Except FuseError ReadWriteEndpoint`, where each
`FuseError` constructor corresponds to one family of Rust panic sites
(`Option::unwrap` on a missing snapshot, `HashMap::get(..).unwrap` on a
missing role, `position(..).unwrap` on a missing index, and `Vec::remove`
out of bounds).  The surrounding loop (receive `monitors_len` messages,
fuse, compare with the cached previous endpoint, send, cache) is embedded
as `reportLoop`, a fuel-indexed recursion over an explicit message stream.
-/

namespace Pisa

/-- Database node role as reported by the read-only monitor
(`read_only_monitor::NodeRole` in the source). -/
inductive NodeRole
  | Master
  | Slave
deriving DecidableEq, Repr

/-- Connection probe status (`connect_monitor::ConnectStatus` in the source). -/
inductive ConnectStatus
  | Connected
  | Disconnected
deriving DecidableEq, Repr

/-- Ping probe status (`ping_monitor::PingStatus` in the source). -/
inductive PingStatus
  | PingOk
  | PingNotOk
deriving DecidableEq, Repr

/-- Modelled from the spec: the role tag of an endpoint record; the concrete
endpoint struct lives in a crate outside the analysed sources. -/
inductive EndpointRole
  | Primary
  | Replica
deriving DecidableEq, Repr

/-- Modelled from the spec: a backend endpoint with name, address, weight and
role; identity is the address.  The concrete struct lives in a crate outside
the analysed sources.  Equality is structural, as with a derived `PartialEq`. -/
structure Endpoint where
  name : String
  addr : String
  weight : Int
  role : EndpointRole
deriving DecidableEq, Repr

/-- Modelled from the spec: the fused endpoint record with the write pool
`readwrite`, the read pool `read` and the configured baseline `read_only`;
the concrete struct lives in `readwritesplitting`, outside the analysed
sources.  Equality is structural, as with a derived `PartialEq`. -/
structure ReadWriteEndpoint where
  readwrite : List Endpoint
  read : List Endpoint
  read_only : List Endpoint
deriving DecidableEq, Repr

/-- Entry of the replication-lag snapshot.  The reconciler only consults the
`is_latency` flag (true means the replica is over the lag threshold). -/
structure LatencyStatus where
  latency : Nat
  is_latency : Bool
deriving DecidableEq, Repr

/-- Connect monitor snapshot: per-address connect status for the write and
read pools.  Sub-maps are modelled as association lists in iteration order. -/
structure ConnectMonitorResponse where
  readwrite : List (String × ConnectStatus)
  read : List (String × ConnectStatus)
deriving DecidableEq, Repr

/-- Ping monitor snapshot: per-address ping status for the two pools. -/
structure PingMonitorResponse where
  readwrite : List (String × PingStatus)
  read : List (String × PingStatus)
deriving DecidableEq, Repr

/-- Read-only monitor snapshot: per-address role map. -/
structure ReadOnlyMonitorResponse where
  roles : List (String × NodeRole)
deriving DecidableEq, Repr

/-- Replication-lag monitor snapshot: per-address latency map. -/
structure ReplicationLagMonitorResponse where
  latency : List (String × LatencyStatus)
deriving DecidableEq, Repr

/-- Message on the fan-in monitor channel (`MonitorResponse` in the source),
one variant per monitor kind. -/
inductive MonitorResponse
  | ConnectMonitorResponse (r : ConnectMonitorResponse)
  | PingMonitorResponse (r : PingMonitorResponse)
  | ReadOnlyMonitorResponse (r : ReadOnlyMonitorResponse)
  | ReplicationLagResponse (r : ReplicationLagMonitorResponse)
deriving DecidableEq, Repr

/-- One constructor per family of Rust panic sites inside the fusion logic:
`missingSnapshot` for `Option::unwrap` on a per-kind snapshot option,
`missingRole` for `roles.get(..).unwrap()`, `missingPosition` for
`position(..).unwrap()`, and `indexOutOfBounds` for `Vec::remove` with an
index past the end. -/
inductive FuseError
  | missingSnapshot
  | missingRole
  | missingPosition
  | indexOutOfBounds
deriving DecidableEq, Repr

instance {ε α : Type} [DecidableEq ε] [DecidableEq α] : DecidableEq (Except ε α)
  | .error a, .error b =>
    match decEq a b with
    | isTrue h => isTrue (by rw [h])
    | isFalse h => isFalse (by intro hh; cases hh; exact h rfl)
  | .error _, .ok _ => isFalse (by intro h; cases h)
  | .ok _, .error _ => isFalse (by intro h; cases h)
  | .ok a, .ok b =>
    match decEq a b with
    | isTrue h => isTrue (by rw [h])
    | isFalse h => isFalse (by intro hh; cases hh; exact h rfl)

/-- Promotion scan over a read pool (source lines 114-129 and 141-151): for
each read endpoint in order, look up its role in the read-only snapshot; a
`Master` role empties the write pool and pushes that endpoint (so the last
`Master` in scan order wins), a `Slave` role leaves the write pool alone, and
a missing entry panics (`roles.get(..).unwrap()`). -/
def promoteScan (roles : List (String × NodeRole)) :
    List Endpoint → List Endpoint → Except FuseError (List Endpoint)
  | [], readwrite => .ok readwrite
  | e :: rest, readwrite =>
    match roles.lookup e.addr with
    | none => .error .missingRole
    | some NodeRole.Master => promoteScan roles rest [e]
    | some NodeRole.Slave => promoteScan roles rest readwrite

/-- Scan of the ping snapshot's readwrite sub-map run when a readwrite entry
of the connect snapshot is `Connected` (source lines 105-133): a `PingNotOk`
entry, when the current read pool is non-empty, unwraps the read-only
snapshot option and runs the promotion scan over the read pool. -/
def pingScanConnected (oro : Option ReadOnlyMonitorResponse) :
    List (String × PingStatus) → ReadWriteEndpoint → Except FuseError ReadWriteEndpoint
  | [], curr => .ok curr
  | (_, PingStatus.PingOk) :: rest, curr => pingScanConnected oro rest curr
  | (_, PingStatus.PingNotOk) :: rest, curr =>
    if 0 < curr.read.length then
      match oro with
      | none => .error .missingSnapshot
      | some ro =>
        match promoteScan ro.roles curr.read curr.readwrite with
        | .error e => .error e
        | .ok w => pingScanConnected oro rest { curr with readwrite := w }
    else
      pingScanConnected oro rest curr

/-- Handling of a `Disconnected` readwrite entry of the connect snapshot
(source lines 136-156): a missing read-only snapshot is matched gracefully
(no change), otherwise the promotion scan runs over the read pool. -/
def disconnectedScan (oro : Option ReadOnlyMonitorResponse)
    (curr : ReadWriteEndpoint) : Except FuseError ReadWriteEndpoint :=
  match oro with
  | none => .ok curr
  | some ro =>
    match promoteScan ro.roles curr.read curr.readwrite with
    | .error e => .error e
    | .ok w => .ok { curr with readwrite := w }

/-- Primary-pool determination loop over the connect snapshot's readwrite
sub-map (source lines 99-158).  A `Connected` entry unwraps the ping snapshot
option and runs `pingScanConnected`; a `Disconnected` entry runs
`disconnectedScan`. -/
def primaryLoop (op : Option PingMonitorResponse) (oro : Option ReadOnlyMonitorResponse) :
    List (String × ConnectStatus) → ReadWriteEndpoint → Except FuseError ReadWriteEndpoint
  | [], curr => .ok curr
  | (_, ConnectStatus.Connected) :: rest, curr =>
    match op with
    | none => .error .missingSnapshot
    | some ping =>
      match pingScanConnected oro ping.readwrite curr with
      | .error e => .error e
      | .ok curr2 => primaryLoop op oro rest curr2
  | (_, ConnectStatus.Disconnected) :: rest, curr =>
    match disconnectedScan oro curr with
    | .error e => .error e
    | .ok curr2 => primaryLoop op oro rest curr2

/-- Scan of the replication-lag snapshot entries (source lines 173-202).  A
not-over-threshold entry whose address is missing from the current read list
appends the read list onto itself; an over-threshold entry removes, from the
current read list, the position its address has in the baseline read list
(panicking if the address is missing there or the index is out of bounds). -/
def lagLoop (baselineRead : List Endpoint) :
    List (String × LatencyStatus) → List Endpoint → Except FuseError (List Endpoint)
  | [], readList => .ok readList
  | (lagAddr, lagStatus) :: rest, readList =>
    if lagStatus.is_latency then
      match baselineRead.findIdx? (fun r => r.addr == lagAddr) with
      | none => .error .missingPosition
      | some pos =>
        if pos < readList.length then
          lagLoop baselineRead rest (readList.eraseIdx pos)
        else
          .error .indexOutOfBounds
    else
      match readList.find? (fun r => r.addr == lagAddr) with
      | some _ => lagLoop baselineRead rest readList
      | none => lagLoop baselineRead rest (readList ++ readList)

/-- Scan of the ping snapshot's read sub-map run for each `Connected` read
entry (source lines 164-220): a `PingOk` entry runs the lag scan when the lag
snapshot is present; a `PingNotOk` entry removes, from the current read list,
the baseline position of the pinged address. -/
def pingReadLoop (baselineRead : List Endpoint)
    (orl : Option ReplicationLagMonitorResponse) :
    List (String × PingStatus) → List Endpoint → Except FuseError (List Endpoint)
  | [], readList => .ok readList
  | (_, PingStatus.PingOk) :: rest, readList =>
    match orl with
    | none => pingReadLoop baselineRead orl rest readList
    | some lagResp =>
      match lagLoop baselineRead lagResp.latency readList with
      | .error e => .error e
      | .ok rl => pingReadLoop baselineRead orl rest rl
  | (pingAddr, PingStatus.PingNotOk) :: rest, readList =>
    match baselineRead.findIdx? (fun r => r.addr == pingAddr) with
    | none => .error .missingPosition
    | some pos =>
      if pos < readList.length then
        pingReadLoop baselineRead orl rest (readList.eraseIdx pos)
      else
        .error .indexOutOfBounds

/-- Read-pool determination loop over the connect snapshot's read sub-map
(source lines 159-228).  A `Connected` entry matches the ping snapshot option
gracefully and runs `pingReadLoop`; a `Disconnected` entry removes, from the
current read list, the baseline position of the address. -/
def readLoop (baselineRead : List Endpoint) (op : Option PingMonitorResponse)
    (orl : Option ReplicationLagMonitorResponse) :
    List (String × ConnectStatus) → List Endpoint → Except FuseError (List Endpoint)
  | [], readList => .ok readList
  | (_, ConnectStatus.Connected) :: rest, readList =>
    match op with
    | none => readLoop baselineRead op orl rest readList
    | some ping =>
      match pingReadLoop baselineRead orl ping.read readList with
      | .error e => .error e
      | .ok rl => readLoop baselineRead op orl rest rl
  | (readAddr, ConnectStatus.Disconnected) :: rest, readList =>
    match baselineRead.findIdx? (fun r => r.addr == readAddr) with
    | none => .error .missingPosition
    | some pos =>
      if pos < readList.length then
        readLoop baselineRead op orl rest (readList.eraseIdx pos)
      else
        .error .indexOutOfBounds

/-- One fusion step of `MonitorReconcile::report` (source lines 99-228):
starting from a fresh clone of the configured baseline `rw_endpoint`, the
primary loop updates the write pool and the read loop updates the read pool.
The connect snapshot option is unwrapped unconditionally (source line 100). -/
def fuseSnapshots (oc : Option ConnectMonitorResponse) (op : Option PingMonitorResponse)
    (oro : Option ReadOnlyMonitorResponse) (orl : Option ReplicationLagMonitorResponse)
    (rw_endpoint : ReadWriteEndpoint) : Except FuseError ReadWriteEndpoint :=
  match oc with
  | none => .error .missingSnapshot
  | some c =>
    match primaryLoop op oro c.readwrite rw_endpoint with
    | .error e => .error e
    | .ok curr1 =>
      match readLoop rw_endpoint.read op orl c.read curr1.read with
      | .error e => .error e
      | .ok rl => .ok { curr1 with read := rl }

/-- State of the four per-kind latest-snapshot options held by the loop
(source lines 72-75); the options persist across ticks. -/
@[ext]
structure RecvState where
  connect : Option ConnectMonitorResponse
  ping : Option PingMonitorResponse
  read_only : Option ReadOnlyMonitorResponse
  replication_lag : Option ReplicationLagMonitorResponse
deriving DecidableEq, Repr

/-- Effect of one received fan-in message on the per-kind options
(source lines 83-96): the matching option is overwritten. -/
def applyMsg (st : RecvState) : MonitorResponse → RecvState
  | .ConnectMonitorResponse r => { st with connect := some r }
  | .PingMonitorResponse r => { st with ping := some r }
  | .ReadOnlyMonitorResponse r => { st with read_only := some r }
  | .ReplicationLagResponse r => { st with replication_lag := some r }

/-- Effect of receiving a batch of fan-in messages (source lines 82-97). -/
def recvBatch (st : RecvState) (msgs : List MonitorResponse) : RecvState :=
  msgs.foldl applyMsg st

/-- Fusion step applied to the current per-kind options. -/
def fuseState (st : RecvState) (b : ReadWriteEndpoint) :
    Except FuseError ReadWriteEndpoint :=
  fuseSnapshots st.connect st.ping st.read_only st.replication_lag b

/-- Last connect snapshot of a message list, if any. -/
def lastConnect : List MonitorResponse → Option ConnectMonitorResponse
  | [] => none
  | .ConnectMonitorResponse r :: rest => some ((lastConnect rest).getD r)
  | .PingMonitorResponse _ :: rest => lastConnect rest
  | .ReadOnlyMonitorResponse _ :: rest => lastConnect rest
  | .ReplicationLagResponse _ :: rest => lastConnect rest

/-- Last ping snapshot of a message list, if any. -/
def lastPing : List MonitorResponse → Option PingMonitorResponse
  | [] => none
  | .PingMonitorResponse r :: rest => some ((lastPing rest).getD r)
  | .ConnectMonitorResponse _ :: rest => lastPing rest
  | .ReadOnlyMonitorResponse _ :: rest => lastPing rest
  | .ReplicationLagResponse _ :: rest => lastPing rest

/-- Last read-only snapshot of a message list, if any. -/
def lastReadOnly : List MonitorResponse → Option ReadOnlyMonitorResponse
  | [] => none
  | .ReadOnlyMonitorResponse r :: rest => some ((lastReadOnly rest).getD r)
  | .ConnectMonitorResponse _ :: rest => lastReadOnly rest
  | .PingMonitorResponse _ :: rest => lastReadOnly rest
  | .ReplicationLagResponse _ :: rest => lastReadOnly rest

/-- Last replication-lag snapshot of a message list, if any. -/
def lastLag : List MonitorResponse → Option ReplicationLagMonitorResponse
  | [] => none
  | .ReplicationLagResponse r :: rest => some ((lastLag rest).getD r)
  | .ConnectMonitorResponse _ :: rest => lastLag rest
  | .PingMonitorResponse _ :: rest => lastLag rest
  | .ReadOnlyMonitorResponse _ :: rest => lastLag rest

/-- Why a run of the reconciliation loop stopped: `recvClosed` models the
panic of `recv().unwrap()` on a closed fan-in channel (source line 83),
`fuseFailure` a panic inside the fusion logic. -/
inductive LoopExit
  | recvClosed
  | fuseFailure (e : FuseError)
deriving DecidableEq, Repr

/-- Observable outcome of running the reconciliation loop for a bounded
number of ticks: the values delivered on the output channel, the number of
completed ticks, and the reason the loop stopped (`none` when the tick
budget ran out with the loop still alive). -/
structure RunResult where
  sent : List ReadWriteEndpoint
  ticks : Nat
  exit : Option LoopExit
deriving DecidableEq, Repr

/-- Outcome of the tail of a tick (source lines 230-238): the send is
attempted exactly when the cached previous endpoint differs from the fused
one, and it delivers a value only when the output channel is open; the
result of a failed send is merely logged. -/
def tickOutcome (sendClosed : Bool) (pre curr : ReadWriteEndpoint)
    (r : RunResult) : RunResult :=
  ⟨if pre ≠ curr ∧ sendClosed = false then curr :: r.sent else r.sent,
   r.ticks + 1, r.exit⟩

/-- The reconciliation loop of `MonitorReconcile::report` (source lines
77-239), run for at most `fuel` ticks over an explicit stream of fan-in
messages.  Each tick receives `mlen` messages (panicking with `recvClosed`
when the stream is exhausted first), fuses the current options against the
configured baseline `b`, attempts the send when the result differs from the
cached previous endpoint, and always updates the cache. -/
def reportLoop (b : ReadWriteEndpoint) (mlen : Nat) (sendClosed : Bool) :
    Nat → RecvState → ReadWriteEndpoint → List MonitorResponse → RunResult
  | 0, _, _, _ => ⟨[], 0, none⟩
  | fuel + 1, st, pre, stream =>
    if mlen ≤ stream.length then
      match fuseState (recvBatch st (stream.take mlen)) b with
      | .error e => ⟨[], 0, some (.fuseFailure e)⟩
      | .ok curr =>
        tickOutcome sendClosed pre curr
          (reportLoop b mlen sendClosed fuel (recvBatch st (stream.take mlen)) curr
            (stream.drop mlen))
    else
      ⟨[], 0, some .recvClosed⟩

/-- True unless the computation stopped at an unwrap of a missing per-kind
snapshot option. -/
def noMissingSnapshot {α : Type} : Except FuseError α → Bool
  | .error FuseError.missingSnapshot => false
  | _ => true

/-- Last replica of the list, in scan order, whose looked-up role is
`Master`; this is the replica the promotion scan ends up keeping. -/
def lastMaster (roles : List (String × NodeRole)) : List Endpoint → Option Endpoint
  | [] => none
  | e :: rest =>
    match lastMaster roles rest with
    | some m => some m
    | none =>
      match roles.lookup e.addr with
      | some NodeRole.Master => some e
      | _ => none

/-! Configuration model (`config.rs`). -/

def default_monitor_period : Nat := 1000

def default_connect_period : Nat := 1000

def default_connect_timeout : Nat := 6000

def default_connect_failure_threshold : Nat := 1

def default_ping_period : Nat := 1000

def default_ping_timeout : Nat := 6000

def default_ping_failure_threshold : Nat := 1

def default_replication_lag_period : Nat := 1000

def default_replication_lag_timeout : Nat := 6000

def default_replication_lag_failure_threshold : Nat := 1

def default_max_replication_lag : Nat := 10000

def default_read_only_period : Nat := 1000

def default_read_only_timeout : Nat := 6000

def default_read_only_failure_threshold : Nat := 1

/-- The `MasterHighAvailability` discovery configuration (source lines
53-85); the numeric fields are Rust `u64` values. -/
structure MasterHighAvailability where
  user : String
  password : String
  monitor_period : Nat
  connect_period : Nat
  connect_timeout : Nat
  connect_failure_threshold : Nat
  ping_period : Nat
  ping_timeout : Nat
  ping_failure_threshold : Nat
  replication_lag_period : Nat
  replication_lag_timeout : Nat
  replication_lag_failure_threshold : Nat
  max_replication_lag : Nat
  read_only_period : Nat
  read_only_timeout : Nat
  read_only_failure_threshold : Nat
deriving DecidableEq, Repr

/-- Default value of a Rust `String` field under `derive(Default)`. -/
def stringDefault : String := ""

/-- Default value of a Rust `u64` field under `derive(Default)`. -/
def u64Default : Nat := 0

/-- The `derive(Default)` instance of `MasterHighAvailability`: every field
takes its own type's default. -/
def MasterHighAvailability.rustDefault : MasterHighAvailability :=
  ⟨stringDefault, stringDefault, u64Default, u64Default, u64Default, u64Default,
   u64Default, u64Default, u64Default, u64Default, u64Default, u64Default,
   u64Default, u64Default, u64Default, u64Default⟩

/-- Field-wise input of a deserialization: `none` means the field is omitted
in the configuration text. -/
structure MasterHighAvailabilityFields where
  user : Option String
  password : Option String
  monitor_period : Option Nat
  connect_period : Option Nat
  connect_timeout : Option Nat
  connect_failure_threshold : Option Nat
  ping_period : Option Nat
  ping_timeout : Option Nat
  ping_failure_threshold : Option Nat
  replication_lag_period : Option Nat
  replication_lag_timeout : Option Nat
  replication_lag_failure_threshold : Option Nat
  max_replication_lag : Option Nat
  read_only_period : Option Nat
  read_only_timeout : Option Nat
  read_only_failure_threshold : Option Nat
deriving DecidableEq, Repr

/-- Deserialization semantics of `MasterHighAvailability` per its serde
attributes (source lines 53-85): `user` and `password` carry no
`serde(default ..)` attribute and are required; every numeric field falls
back to its `default_*` function exactly when omitted. -/
def deserializeMha (p : MasterHighAvailabilityFields) : Option MasterHighAvailability :=
  match p.user, p.password with
  | some u, some pw =>
    some
      ⟨u, pw,
       p.monitor_period.getD default_monitor_period,
       p.connect_period.getD default_connect_period,
       p.connect_timeout.getD default_connect_timeout,
       p.connect_failure_threshold.getD default_connect_failure_threshold,
       p.ping_period.getD default_ping_period,
       p.ping_timeout.getD default_ping_timeout,
       p.ping_failure_threshold.getD default_ping_failure_threshold,
       p.replication_lag_period.getD default_replication_lag_period,
       p.replication_lag_timeout.getD default_replication_lag_timeout,
       p.replication_lag_failure_threshold.getD default_replication_lag_failure_threshold,
       p.max_replication_lag.getD default_max_replication_lag,
       p.read_only_period.getD default_read_only_period,
       p.read_only_timeout.getD default_read_only_timeout,
       p.read_only_failure_threshold.getD default_read_only_failure_threshold⟩
  | _, _ => none

/-! Concrete inputs used by the counterexamples and witnesses. -/

def epP : Endpoint := ⟨"p", "p:3306", 1, EndpointRole.Primary⟩

def epR : Endpoint := ⟨"r", "r:3306", 1, EndpointRole.Replica⟩

def epA : Endpoint := ⟨"a", "a:3306", 1, EndpointRole.Replica⟩

def epB : Endpoint := ⟨"b", "b:3306", 1, EndpointRole.Replica⟩

def epR1 : Endpoint := ⟨"r1", "r1:3306", 1, EndpointRole.Replica⟩

def epR2 : Endpoint := ⟨"r2", "r2:3306", 1, EndpointRole.Replica⟩

def st0 : RecvState := ⟨none, none, none, none⟩

/-- Baseline with one configured primary and one configured replica. -/
def bPR : ReadWriteEndpoint := ⟨[epP], [epR], [epR]⟩

def connDiscR : ConnectMonitorResponse :=
  ⟨[("p:3306", ConnectStatus.Disconnected)], [("r:3306", ConnectStatus.Connected)]⟩

def pingPR : PingMonitorResponse :=
  ⟨[("p:3306", PingStatus.PingNotOk)], [("r:3306", PingStatus.PingOk)]⟩

def roMasterR : ReadOnlyMonitorResponse := ⟨[("r:3306", NodeRole.Master)]⟩

def roSlaveR : ReadOnlyMonitorResponse := ⟨[("r:3306", NodeRole.Slave)]⟩

def roEmpty : ReadOnlyMonitorResponse := ⟨[]⟩

def rlFreshR : ReplicationLagMonitorResponse := ⟨[("r:3306", ⟨0, false⟩)]⟩

def msgsPromote : List MonitorResponse :=
  [.ConnectMonitorResponse connDiscR, .PingMonitorResponse pingPR,
   .ReadOnlyMonitorResponse roMasterR, .ReplicationLagResponse rlFreshR]

/-- Fused value of the promotion scenario: the replica is promoted into the
write pool but also still present in the read pool. -/
def fusedPromote : ReadWriteEndpoint := ⟨[epR], [epR], [epR]⟩

def msgsAllPing : List MonitorResponse :=
  [.PingMonitorResponse pingPR, .PingMonitorResponse pingPR,
   .PingMonitorResponse pingPR, .PingMonitorResponse pingPR]

/-- Baseline with primary and the two replicas `a`, `b` in configuration
order. -/
def bAB : ReadWriteEndpoint := ⟨[epP], [epA, epB], [epA, epB]⟩

def connDiscOnly : ConnectMonitorResponse :=
  ⟨[("p:3306", ConnectStatus.Disconnected)], []⟩

def pingEmpty : PingMonitorResponse := ⟨[], []⟩

def roBothMaster : ReadOnlyMonitorResponse :=
  ⟨[("a:3306", NodeRole.Master), ("b:3306", NodeRole.Master)]⟩

def rlEmpty : ReplicationLagMonitorResponse := ⟨[]⟩

/-- Connect snapshot reporting the single configured primary as connected
(paired with a failing ping below). -/
def connPingBad : ConnectMonitorResponse :=
  ⟨[("p:3306", ConnectStatus.Connected)], []⟩

/-- Ping snapshot reporting the primary as PingNotOk. -/
def pingBadP : PingMonitorResponse :=
  ⟨[("p:3306", PingStatus.PingNotOk)], []⟩

/-- Baseline with primary and the two replicas `r1`, `r2`. -/
def bR12 : ReadWriteEndpoint := ⟨[epP], [epR1, epR2], [epR1, epR2]⟩

def connHealthy12 : ConnectMonitorResponse :=
  ⟨[("p:3306", ConnectStatus.Connected)],
   [("r1:3306", ConnectStatus.Connected), ("r2:3306", ConnectStatus.Connected)]⟩

def pingHealthy12 : PingMonitorResponse :=
  ⟨[("p:3306", PingStatus.PingOk)],
   [("r1:3306", PingStatus.PingOk), ("r2:3306", PingStatus.PingOk)]⟩

def roSlave12 : ReadOnlyMonitorResponse :=
  ⟨[("r1:3306", NodeRole.Slave), ("r2:3306", NodeRole.Slave)]⟩

/-- Lag snapshot with `r1` fresh and `r2` over the threshold. -/
def rlLagR2 : ReplicationLagMonitorResponse :=
  ⟨[("r1:3306", ⟨50, false⟩), ("r2:3306", ⟨5000, true⟩)]⟩

/-- Snapshots of a tick on which the sole replica is disconnected, so the
fused endpoint differs from the baseline and a send is attempted. -/
def connReadDisc : ConnectMonitorResponse :=
  ⟨[("p:3306", ConnectStatus.Connected)], [("r:3306", ConnectStatus.Disconnected)]⟩

def pingHealthyPR : PingMonitorResponse :=
  ⟨[("p:3306", PingStatus.PingOk)], [("r:3306", PingStatus.PingOk)]⟩

def msgsReadDisc : List MonitorResponse :=
  [.ConnectMonitorResponse connReadDisc, .PingMonitorResponse pingHealthyPR,
   .ReadOnlyMonitorResponse roSlaveR, .ReplicationLagResponse rlFreshR]

/-- Fused value of the replica-disconnected scenario. -/
def fusedReadDisc : ReadWriteEndpoint := ⟨[epP], [], [epR]⟩

/-! Helper lemmas about the fusion functions. -/

theorem promoteScan_ok_eq (roles : List (String × NodeRole)) (l : List Endpoint) :
    ∀ w r, promoteScan roles l w = Except.ok r →
      r = (match lastMaster roles l with
           | none => w
           | some e => [e]) := by
  induction l with
  | nil =>
    intro w r h
    simp only [promoteScan] at h
    cases h
    simp [lastMaster]
  | cons e rest ih =>
    intro w r h
    simp only [promoteScan] at h
    cases hlk : List.lookup e.addr roles with
    | none => rw [hlk] at h; simp at h
    | some role =>
      cases role with
      | Master =>
        rw [hlk] at h
        simp only at h
        have hr := ih [e] r h
        simp only [lastMaster]
        cases hlm : lastMaster roles rest with
        | none => rw [hlm] at hr; rw [hlk]; simpa using hr
        | some m => rw [hlm] at hr; simpa using hr
      | Slave =>
        rw [hlk] at h
        simp only at h
        have hr := ih w r h
        simp only [lastMaster]
        cases hlm : lastMaster roles rest with
        | none => rw [hlm] at hr; rw [hlk]; simpa using hr
        | some m => rw [hlm] at hr; simpa using hr

theorem promoteScan_allSlave (roles : List (String × NodeRole)) (l : List Endpoint)
    (h : ∀ e ∈ l, List.lookup e.addr roles = some NodeRole.Slave) :
    ∀ w, promoteScan roles l w = Except.ok w := by
  induction l with
  | nil => intro w; rfl
  | cons e rest ih =>
    intro w
    have he := h e (by simp)
    simp only [promoteScan]
    rw [he]
    exact ih (fun x hx => h x (by simp [hx])) w

theorem pingScanConnected_ok_frame (oro : Option ReadOnlyMonitorResponse)
    (pl : List (String × PingStatus)) :
    ∀ curr r, pingScanConnected oro pl curr = Except.ok r →
      r.read = curr.read ∧ r.read_only = curr.read_only := by
  induction pl with
  | nil =>
    intro curr r h
    simp only [pingScanConnected] at h
    cases h
    exact ⟨rfl, rfl⟩
  | cons hd rest ih =>
    obtain ⟨a, s⟩ := hd
    cases s with
    | PingOk =>
      intro curr r h
      simp only [pingScanConnected] at h
      exact ih curr r h
    | PingNotOk =>
      intro curr r h
      simp only [pingScanConnected] at h
      by_cases hl : 0 < curr.read.length
      · rw [if_pos hl] at h
        cases oro with
        | none => simp at h
        | some ro =>
          simp only at h
          cases hp : promoteScan ro.roles curr.read curr.readwrite with
          | error e => rw [hp] at h; simp at h
          | ok w =>
            rw [hp] at h
            simp only at h
            have hr := ih _ r h
            simpa using hr
      · rw [if_neg hl] at h
        exact ih curr r h

theorem disconnectedScan_ok_frame (oro : Option ReadOnlyMonitorResponse)
    (curr r : ReadWriteEndpoint) (h : disconnectedScan oro curr = Except.ok r) :
    r.read = curr.read ∧ r.read_only = curr.read_only := by
  unfold disconnectedScan at h
  cases oro with
  | none => simp only at h; cases h; exact ⟨rfl, rfl⟩
  | some ro =>
    simp only at h
    cases hp : promoteScan ro.roles curr.read curr.readwrite with
    | error e => rw [hp] at h; simp at h
    | ok w => rw [hp] at h; simp only at h; cases h; exact ⟨rfl, rfl⟩

theorem primaryLoop_ok_frame (op : Option PingMonitorResponse)
    (oro : Option ReadOnlyMonitorResponse) (l : List (String × ConnectStatus)) :
    ∀ curr r, primaryLoop op oro l curr = Except.ok r →
      r.read = curr.read ∧ r.read_only = curr.read_only := by
  induction l with
  | nil =>
    intro curr r h
    simp only [primaryLoop] at h
    cases h
    exact ⟨rfl, rfl⟩
  | cons hd rest ih =>
    obtain ⟨a, s⟩ := hd
    cases s with
    | Connected =>
      intro curr r h
      simp only [primaryLoop] at h
      cases op with
      | none => simp at h
      | some ping =>
        simp only at h
        cases hp : pingScanConnected oro ping.readwrite curr with
        | error e => rw [hp] at h; simp at h
        | ok c2 =>
          rw [hp] at h
          simp only at h
          have h1 := pingScanConnected_ok_frame oro ping.readwrite curr c2 hp
          have h2 := ih c2 r h
          exact ⟨h2.1.trans h1.1, h2.2.trans h1.2⟩
    | Disconnected =>
      intro curr r h
      simp only [primaryLoop] at h
      cases hd2 : disconnectedScan oro curr with
      | error e => rw [hd2] at h; simp at h
      | ok c2 =>
        rw [hd2] at h
        simp only at h
        have h1 := disconnectedScan_ok_frame oro curr c2 hd2
        have h2 := ih c2 r h
        exact ⟨h2.1.trans h1.1, h2.2.trans h1.2⟩

theorem fuseSnapshots_ok_read_only (oc : Option ConnectMonitorResponse)
    (op : Option PingMonitorResponse) (oro : Option ReadOnlyMonitorResponse)
    (orl : Option ReplicationLagMonitorResponse) (b v : ReadWriteEndpoint)
    (h : fuseSnapshots oc op oro orl b = Except.ok v) : v.read_only = b.read_only := by
  unfold fuseSnapshots at h
  cases oc with
  | none => simp at h
  | some c =>
    simp only at h
    cases hp : primaryLoop op oro c.readwrite b with
    | error e => rw [hp] at h; simp at h
    | ok c1 =>
      rw [hp] at h
      simp only at h
      cases hr : readLoop b.read op orl c.read c1.read with
      | error e => rw [hr] at h; simp at h
      | ok rl =>
        rw [hr] at h
        simp only at h
        cases h
        simpa using (primaryLoop_ok_frame op oro c.readwrite b c1 hp).2

theorem pingScanConnected_allSlave (ro : ReadOnlyMonitorResponse)
    (pl : List (String × PingStatus)) :
    ∀ curr, (∀ e ∈ curr.read, List.lookup e.addr ro.roles = some NodeRole.Slave) →
      pingScanConnected (some ro) pl curr = Except.ok curr := by
  induction pl with
  | nil => intro curr _; rfl
  | cons hd rest ih =>
    obtain ⟨a, s⟩ := hd
    cases s with
    | PingOk =>
      intro curr h
      simp only [pingScanConnected]
      exact ih curr h
    | PingNotOk =>
      intro curr h
      simp only [pingScanConnected]
      by_cases hl : 0 < curr.read.length
      · rw [if_pos hl]
        rw [promoteScan_allSlave ro.roles curr.read h curr.readwrite]
        exact ih curr h
      · rw [if_neg hl]
        exact ih curr h

theorem disconnectedScan_allSlave (ro : ReadOnlyMonitorResponse) (curr : ReadWriteEndpoint)
    (h : ∀ e ∈ curr.read, List.lookup e.addr ro.roles = some NodeRole.Slave) :
    disconnectedScan (some ro) curr = Except.ok curr := by
  unfold disconnectedScan
  simp only
  rw [promoteScan_allSlave ro.roles curr.read h curr.readwrite]

theorem primaryLoop_allSlave (op : Option PingMonitorResponse) (ro : ReadOnlyMonitorResponse)
    (l : List (String × ConnectStatus)) :
    ∀ curr r, (∀ e ∈ curr.read, List.lookup e.addr ro.roles = some NodeRole.Slave) →
      primaryLoop op (some ro) l curr = Except.ok r → r = curr := by
  induction l with
  | nil =>
    intro curr r _ h
    simp only [primaryLoop] at h
    cases h
    rfl
  | cons hd rest ih =>
    obtain ⟨a, s⟩ := hd
    cases s with
    | Connected =>
      intro curr r hs h
      simp only [primaryLoop] at h
      cases op with
      | none => simp at h
      | some ping =>
        simp only at h
        rw [pingScanConnected_allSlave ro ping.readwrite curr hs] at h
        simp only at h
        exact ih curr r hs h
    | Disconnected =>
      intro curr r hs h
      simp only [primaryLoop] at h
      rw [disconnectedScan_allSlave ro curr hs] at h
      simp only at h
      exact ih curr r hs h

/-! Helper lemmas: the fusion never hits the missing-snapshot unwraps once a
snapshot of every kind has been received. -/

theorem noMissingSnapshot_error {α β : Type} (e : FuseError)
    (h : noMissingSnapshot (Except.error e : Except FuseError α) = true) :
    noMissingSnapshot (Except.error e : Except FuseError β) = true := by
  cases e <;> simp [noMissingSnapshot] at h ⊢

theorem promoteScan_noMS (roles : List (String × NodeRole)) (l : List Endpoint) :
    ∀ w, noMissingSnapshot (promoteScan roles l w) = true := by
  induction l with
  | nil => intro w; rfl
  | cons e rest ih =>
    intro w
    simp only [promoteScan]
    cases List.lookup e.addr roles with
    | none => rfl
    | some role =>
      cases role with
      | Master => exact ih [e]
      | Slave => exact ih w

theorem pingScanConnected_noMS (ro : ReadOnlyMonitorResponse)
    (pl : List (String × PingStatus)) :
    ∀ curr, noMissingSnapshot (pingScanConnected (some ro) pl curr) = true := by
  induction pl with
  | nil => intro curr; rfl
  | cons hd rest ih =>
    obtain ⟨a, s⟩ := hd
    cases s with
    | PingOk => intro curr; simp only [pingScanConnected]; exact ih curr
    | PingNotOk =>
      intro curr
      simp only [pingScanConnected]
      by_cases hl : 0 < curr.read.length
      · rw [if_pos hl]
        cases hp : promoteScan ro.roles curr.read curr.readwrite with
        | error e =>
          have hm := promoteScan_noMS ro.roles curr.read curr.readwrite
          rw [hp] at hm
          exact noMissingSnapshot_error e hm
        | ok w => exact ih _
      · rw [if_neg hl]
        exact ih curr

theorem disconnectedScan_noMS (oro : Option ReadOnlyMonitorResponse)
    (curr : ReadWriteEndpoint) :
    noMissingSnapshot (disconnectedScan oro curr) = true := by
  unfold disconnectedScan
  cases oro with
  | none => rfl
  | some ro =>
    simp only
    cases hp : promoteScan ro.roles curr.read curr.readwrite with
    | error e =>
      have hm := promoteScan_noMS ro.roles curr.read curr.readwrite
      rw [hp] at hm
      exact noMissingSnapshot_error e hm
    | ok w => rfl

theorem primaryLoop_noMS (ping : PingMonitorResponse) (ro : ReadOnlyMonitorResponse)
    (l : List (String × ConnectStatus)) :
    ∀ curr, noMissingSnapshot (primaryLoop (some ping) (some ro) l curr) = true := by
  induction l with
  | nil => intro curr; rfl
  | cons hd rest ih =>
    obtain ⟨a, s⟩ := hd
    cases s with
    | Connected =>
      intro curr
      simp only [primaryLoop]
      cases hp : pingScanConnected (some ro) ping.readwrite curr with
      | error e =>
        have hm := pingScanConnected_noMS ro ping.readwrite curr
        rw [hp] at hm
        simpa using hm
      | ok c2 => exact ih c2
    | Disconnected =>
      intro curr
      simp only [primaryLoop]
      cases hd2 : disconnectedScan (some ro) curr with
      | error e =>
        have hm := disconnectedScan_noMS (some ro) curr
        rw [hd2] at hm
        simpa using hm
      | ok c2 => exact ih c2

theorem lagLoop_noMS (baselineRead : List Endpoint) (lat : List (String × LatencyStatus)) :
    ∀ readList, noMissingSnapshot (lagLoop baselineRead lat readList) = true := by
  induction lat with
  | nil => intro readList; rfl
  | cons hd rest ih =>
    obtain ⟨a, s⟩ := hd
    intro readList
    simp only [lagLoop]
    by_cases hlat : s.is_latency
    · rw [if_pos hlat]
      cases List.findIdx? (fun r => r.addr == a) baselineRead with
      | none => rfl
      | some pos =>
        simp only
        by_cases hpos : pos < readList.length
        · rw [if_pos hpos]; exact ih _
        · rw [if_neg hpos]; rfl
    · rw [if_neg hlat]
      cases List.find? (fun r => r.addr == a) readList with
      | none => exact ih _
      | some e => exact ih _

theorem pingReadLoop_noMS (baselineRead : List Endpoint)
    (orl : Option ReplicationLagMonitorResponse) (pl : List (String × PingStatus)) :
    ∀ readList, noMissingSnapshot (pingReadLoop baselineRead orl pl readList) = true := by
  induction pl with
  | nil => intro readList; rfl
  | cons hd rest ih =>
    obtain ⟨a, s⟩ := hd
    cases s with
    | PingOk =>
      intro readList
      simp only [pingReadLoop]
      cases orl with
      | none => exact ih readList
      | some lagResp =>
        simp only
        cases hl : lagLoop baselineRead lagResp.latency readList with
        | error e =>
          have hm := lagLoop_noMS baselineRead lagResp.latency readList
          rw [hl] at hm
          simpa using hm
        | ok rl => exact ih rl
    | PingNotOk =>
      intro readList
      simp only [pingReadLoop]
      cases List.findIdx? (fun r => r.addr == a) baselineRead with
      | none => rfl
      | some pos =>
        simp only
        by_cases hpos : pos < readList.length
        · rw [if_pos hpos]; exact ih _
        · rw [if_neg hpos]; rfl

theorem readLoop_noMS (baselineRead : List Endpoint) (op : Option PingMonitorResponse)
    (orl : Option ReplicationLagMonitorResponse) (l : List (String × ConnectStatus)) :
    ∀ readList, noMissingSnapshot (readLoop baselineRead op orl l readList) = true := by
  induction l with
  | nil => intro readList; rfl
  | cons hd rest ih =>
    obtain ⟨a, s⟩ := hd
    cases s with
    | Connected =>
      intro readList
      simp only [readLoop]
      cases op with
      | none => exact ih readList
      | some ping =>
        simp only
        cases hp : pingReadLoop baselineRead orl ping.read readList with
        | error e =>
          have hm := pingReadLoop_noMS baselineRead orl ping.read readList
          rw [hp] at hm
          simpa using hm
        | ok rl => exact ih rl
    | Disconnected =>
      intro readList
      simp only [readLoop]
      cases List.findIdx? (fun r => r.addr == a) baselineRead with
      | none => rfl
      | some pos =>
        simp only
        by_cases hpos : pos < readList.length
        · rw [if_pos hpos]; exact ih _
        · rw [if_neg hpos]; rfl

/-! Helper lemmas about the receive state and the reconciliation loop. -/

theorem recvBatch_connect (l : List MonitorResponse) :
    ∀ st, (recvBatch st l).connect =
      (match lastConnect l with
       | none => st.connect
       | some r => some r) := by
  induction l with
  | nil => intro st; rfl
  | cons m rest ih =>
    intro st
    cases m with
    | ConnectMonitorResponse r =>
      show (recvBatch { st with connect := some r } rest).connect = _
      rw [ih]
      simp only [lastConnect]
      cases lastConnect rest <;> rfl
    | PingMonitorResponse r =>
      show (recvBatch { st with ping := some r } rest).connect = _
      rw [ih]
      simp only [lastConnect]
    | ReadOnlyMonitorResponse r =>
      show (recvBatch { st with read_only := some r } rest).connect = _
      rw [ih]
      simp only [lastConnect]
    | ReplicationLagResponse r =>
      show (recvBatch { st with replication_lag := some r } rest).connect = _
      rw [ih]
      simp only [lastConnect]

theorem recvBatch_ping (l : List MonitorResponse) :
    ∀ st, (recvBatch st l).ping =
      (match lastPing l with
       | none => st.ping
       | some r => some r) := by
  induction l with
  | nil => intro st; rfl
  | cons m rest ih =>
    intro st
    cases m with
    | PingMonitorResponse r =>
      show (recvBatch { st with ping := some r } rest).ping = _
      rw [ih]
      simp only [lastPing]
      cases lastPing rest <;> rfl
    | ConnectMonitorResponse r =>
      show (recvBatch { st with connect := some r } rest).ping = _
      rw [ih]
      simp only [lastPing]
    | ReadOnlyMonitorResponse r =>
      show (recvBatch { st with read_only := some r } rest).ping = _
      rw [ih]
      simp only [lastPing]
    | ReplicationLagResponse r =>
      show (recvBatch { st with replication_lag := some r } rest).ping = _
      rw [ih]
      simp only [lastPing]

theorem recvBatch_read_only (l : List MonitorResponse) :
    ∀ st, (recvBatch st l).read_only =
      (match lastReadOnly l with
       | none => st.read_only
       | some r => some r) := by
  induction l with
  | nil => intro st; rfl
  | cons m rest ih =>
    intro st
    cases m with
    | ReadOnlyMonitorResponse r =>
      show (recvBatch { st with read_only := some r } rest).read_only = _
      rw [ih]
      simp only [lastReadOnly]
      cases lastReadOnly rest <;> rfl
    | ConnectMonitorResponse r =>
      show (recvBatch { st with connect := some r } rest).read_only = _
      rw [ih]
      simp only [lastReadOnly]
    | PingMonitorResponse r =>
      show (recvBatch { st with ping := some r } rest).read_only = _
      rw [ih]
      simp only [lastReadOnly]
    | ReplicationLagResponse r =>
      show (recvBatch { st with replication_lag := some r } rest).read_only = _
      rw [ih]
      simp only [lastReadOnly]

theorem recvBatch_replication_lag (l : List MonitorResponse) :
    ∀ st, (recvBatch st l).replication_lag =
      (match lastLag l with
       | none => st.replication_lag
       | some r => some r) := by
  induction l with
  | nil => intro st; rfl
  | cons m rest ih =>
    intro st
    cases m with
    | ReplicationLagResponse r =>
      show (recvBatch { st with replication_lag := some r } rest).replication_lag = _
      rw [ih]
      simp only [lastLag]
      cases lastLag rest <;> rfl
    | ConnectMonitorResponse r =>
      show (recvBatch { st with connect := some r } rest).replication_lag = _
      rw [ih]
      simp only [lastLag]
    | PingMonitorResponse r =>
      show (recvBatch { st with ping := some r } rest).replication_lag = _
      rw [ih]
      simp only [lastLag]
    | ReadOnlyMonitorResponse r =>
      show (recvBatch { st with read_only := some r } rest).replication_lag = _
      rw [ih]
      simp only [lastLag]

theorem recvBatch_idem (st : RecvState) (l : List MonitorResponse) :
    recvBatch (recvBatch st l) l = recvBatch st l := by
  apply RecvState.ext
  · rw [recvBatch_connect l (recvBatch st l)]
    cases hlc : lastConnect l with
    | none => rfl
    | some r => rw [recvBatch_connect l st, hlc]
  · rw [recvBatch_ping l (recvBatch st l)]
    cases hlc : lastPing l with
    | none => rfl
    | some r => rw [recvBatch_ping l st, hlc]
  · rw [recvBatch_read_only l (recvBatch st l)]
    cases hlc : lastReadOnly l with
    | none => rfl
    | some r => rw [recvBatch_read_only l st, hlc]
  · rw [recvBatch_replication_lag l (recvBatch st l)]
    cases hlc : lastLag l with
    | none => rfl
    | some r => rw [recvBatch_replication_lag l st, hlc]

theorem reportLoop_sent_sendClosed (b : ReadWriteEndpoint) (mlen : Nat) :
    ∀ fuel st pre stream, (reportLoop b mlen true fuel st pre stream).sent = [] := by
  intro fuel
  induction fuel with
  | zero => intro st pre stream; rfl
  | succ n ih =>
    intro st pre stream
    simp only [reportLoop]
    by_cases hlen : mlen ≤ stream.length
    · rw [if_pos hlen]
      cases hf : fuseState (recvBatch st (stream.take mlen)) b with
      | error e => rfl
      | ok curr =>
        show (tickOutcome true pre curr
          (reportLoop b mlen true n (recvBatch st (stream.take mlen)) curr
            (stream.drop mlen))).sent = []
        simp [tickOutcome, ih]
    · rw [if_neg hlen]

theorem reportLoop_head_ne (b : ReadWriteEndpoint) (mlen : Nat) :
    ∀ fuel st pre stream e,
      ((reportLoop b mlen false fuel st pre stream).sent).head? = some e → e ≠ pre := by
  intro fuel
  induction fuel with
  | zero => intro st pre stream e h; simp [reportLoop] at h
  | succ n ih =>
    intro st pre stream e h
    simp only [reportLoop] at h
    by_cases hlen : mlen ≤ stream.length
    · rw [if_pos hlen] at h
      cases hf : fuseState (recvBatch st (stream.take mlen)) b with
      | error e2 => rw [hf] at h; simp at h
      | ok curr =>
        rw [hf] at h
        simp only [tickOutcome] at h
        by_cases hpc : pre = curr
        · rw [if_neg (by simp [hpc])] at h
          have hne := ih _ _ _ _ h
          rw [hpc]
          exact hne
        · rw [if_pos ⟨hpc, by simp⟩] at h
          rw [List.head?_cons] at h
          cases h
          exact Ne.symm hpc
    · rw [if_neg hlen] at h
      simp at h

theorem reportLoop_chain (b : ReadWriteEndpoint) (mlen : Nat) (sC : Bool) :
    ∀ fuel st pre stream,
      List.Chain' (fun x y => x ≠ y) ((reportLoop b mlen sC fuel st pre stream).sent) := by
  cases sC with
  | true =>
    intro fuel st pre stream
    rw [reportLoop_sent_sendClosed]
    exact List.chain'_nil
  | false =>
    intro fuel
    induction fuel with
    | zero => intro st pre stream; exact List.chain'_nil
    | succ n ih =>
      intro st pre stream
      simp only [reportLoop]
      by_cases hlen : mlen ≤ stream.length
      · rw [if_pos hlen]
        cases hf : fuseState (recvBatch st (stream.take mlen)) b with
        | error e => exact List.chain'_nil
        | ok curr =>
          show List.Chain' (fun x y => x ≠ y) ((tickOutcome false pre curr
            (reportLoop b mlen false n (recvBatch st (stream.take mlen)) curr
              (stream.drop mlen))).sent)
          simp only [tickOutcome]
          by_cases hpc : pre = curr
          · rw [if_neg (by simp [hpc])]
            exact ih _ _ _
          · rw [if_pos ⟨hpc, by simp⟩]
            rw [List.chain'_cons']
            refine ⟨?_, ih _ _ _⟩
            intro y hy
            rw [Option.mem_def] at hy
            have hne := reportLoop_head_ne b mlen n _ curr _ y hy
            exact Ne.symm hne
      · rw [if_neg hlen]
        exact List.chain'_nil

/-! Claim theorems. -/

/-- C1 (counterexample): the claimed invariant "readwrite and read are
disjoint by address in every value sent on the output channel" is false on
the code: on a tick in which the configured primary is disconnected and the
sole replica reports the Master role, the replica is promoted into the write
pool but never removed from the read pool, and the resulting value (with the
same address in both pools) is sent. -/
theorem c1_counterexample :
    (reportLoop bPR 4 false 1 st0 bPR msgsPromote).sent = [fusedPromote] ∧
    epR.addr ∈ fusedPromote.readwrite.map Endpoint.addr ∧
    epR.addr ∈ fusedPromote.read.map Endpoint.addr := by
  refine ⟨by decide, by decide, by decide⟩

/-- C1 (amended): when a replica is promoted to primary during a tick, the
write pool is replaced but the promoted replica's address is not removed
from the read pool: the primary-determination pass never modifies the read
pool at all, so the emitted readwrite and read pools need not be disjoint. -/
theorem c1_amended (op : Option PingMonitorResponse) (oro : Option ReadOnlyMonitorResponse)
    (l : List (String × ConnectStatus)) (curr r : ReadWriteEndpoint)
    (h : primaryLoop op oro l curr = Except.ok r) : r.read = curr.read :=
  (primaryLoop_ok_frame op oro l curr r h).1

/-- C1 (witness): the amended theorem applied to the concrete promotion
scenario. -/
theorem c1_witness : fusedPromote.read = bPR.read :=
  c1_amended (some pingPR) (some roMasterR) connDiscR.readwrite bPR fusedPromote (by decide)

/-- C2: on every tick the reconciler sends the fused endpoint exactly when
it differs from the cached previous value (and the output channel is open),
and always continues with the cache updated to the fused value; hence a
tick whose received batch repeats the previous one emits nothing, and no
two consecutive emissions are equal. -/
theorem c2_theorem :
    (∀ (b : ReadWriteEndpoint) (mlen : Nat) (sC : Bool) (fuel : Nat) (st : RecvState)
        (pre curr : ReadWriteEndpoint) (stream : List MonitorResponse),
        mlen ≤ stream.length →
        fuseState (recvBatch st (stream.take mlen)) b = Except.ok curr →
        (reportLoop b mlen sC (fuel + 1) st pre stream).sent =
          (if pre = curr ∨ sC = true then [] else [curr]) ++
            (reportLoop b mlen sC fuel (recvBatch st (stream.take mlen)) curr
              (stream.drop mlen)).sent) ∧
    (∀ (b : ReadWriteEndpoint) (mlen : Nat) (sC : Bool) (fuel : Nat) (st : RecvState)
        (pre : ReadWriteEndpoint) (batch rest : List MonitorResponse),
        batch.length = mlen →
        (reportLoop b mlen sC (fuel + 2) st pre (batch ++ (batch ++ rest))).sent =
          (reportLoop b mlen sC (fuel + 1) st pre (batch ++ rest)).sent) ∧
    (∀ (b : ReadWriteEndpoint) (mlen : Nat) (sC : Bool) (fuel : Nat) (st : RecvState)
        (pre : ReadWriteEndpoint) (stream : List MonitorResponse),
        List.Chain' (fun x y => x ≠ y) ((reportLoop b mlen sC fuel st pre stream).sent)) := by
  refine ⟨?_, ?_, ?_⟩
  · intro b mlen sC fuel st pre curr stream hlen hfuse
    simp only [reportLoop]
    rw [if_pos hlen, hfuse]
    show (tickOutcome sC pre curr
      (reportLoop b mlen sC fuel (recvBatch st (stream.take mlen)) curr
        (stream.drop mlen))).sent = _
    simp only [tickOutcome]
    by_cases hpc : pre = curr
    · rw [if_neg (by simp [hpc]), if_pos (Or.inl hpc)]
      simp
    · cases sC with
      | true => rw [if_neg (by simp), if_pos (Or.inr rfl)]; simp
      | false => rw [if_pos ⟨hpc, rfl⟩, if_neg (by simp [hpc])]; simp
  · intro b mlen sC fuel st pre batch rest hb
    have hlen1 : mlen ≤ (batch ++ (batch ++ rest)).length := by
      rw [← hb]; simp [List.length_append]
    have hlen2 : mlen ≤ (batch ++ rest).length := by
      rw [← hb]; simp [List.length_append]
    have htake1 : (batch ++ (batch ++ rest)).take mlen = batch := by
      rw [← hb]; exact List.take_left _ _
    have hdrop1 : (batch ++ (batch ++ rest)).drop mlen = batch ++ rest := by
      rw [← hb]; exact List.drop_left _ _
    have htake2 : (batch ++ rest).take mlen = batch := by
      rw [← hb]; exact List.take_left _ _
    have hdrop2 : (batch ++ rest).drop mlen = rest := by
      rw [← hb]; exact List.drop_left _ _
    show (reportLoop b mlen sC (fuel + 1 + 1) st pre (batch ++ (batch ++ rest))).sent =
      (reportLoop b mlen sC (fuel + 1) st pre (batch ++ rest)).sent
    conv_lhs => rw [reportLoop]
    conv_rhs => rw [reportLoop]
    rw [if_pos hlen1, if_pos hlen2, htake1, htake2, hdrop1, hdrop2]
    cases hf : fuseState (recvBatch st batch) b with
    | error e => rfl
    | ok curr =>
      have hX : (reportLoop b mlen sC (fuel + 1) (recvBatch st batch) curr
          (batch ++ rest)).sent =
          (reportLoop b mlen sC fuel (recvBatch st batch) curr rest).sent := by
        conv_lhs => rw [reportLoop]
        rw [if_pos hlen2, htake2, hdrop2, recvBatch_idem, hf]
        show (tickOutcome sC curr curr
          (reportLoop b mlen sC fuel (recvBatch st batch) curr rest)).sent = _
        simp only [tickOutcome]
        rw [if_neg (by simp)]
      show (tickOutcome sC pre curr (reportLoop b mlen sC (fuel + 1) (recvBatch st batch)
        curr (batch ++ rest))).sent =
        (tickOutcome sC pre curr (reportLoop b mlen sC fuel (recvBatch st batch)
          curr rest)).sent
      simp only [tickOutcome]
      rw [hX]
  · exact fun b mlen sC fuel st pre stream => reportLoop_chain b mlen sC fuel st pre stream

/-- C2 (witness): the single-tick clause applied to the concrete promotion
scenario, whose fused value differs from the cached baseline. -/
theorem c2_witness :
    (reportLoop bPR 4 false 1 st0 bPR msgsPromote).sent =
      (if bPR = fusedPromote ∨ false = true then [] else [fusedPromote]) ++
        (reportLoop bPR 4 false 0 (recvBatch st0 (msgsPromote.take 4)) fusedPromote
          (msgsPromote.drop 4)).sent :=
  c2_theorem.1 bPR 4 false 0 st0 bPR fusedPromote msgsPromote (by decide) (by decide)

/-- C3 (counterexample): on a tick in which the configured primary is
disconnected and the sole replica reports the Slave role, the fused
readwrite pool is not empty as claimed: it still holds the configured
primary. -/
theorem c3_counterexample :
    fuseSnapshots (some connDiscR) (some pingPR) (some roSlaveR) (some rlFreshR) bPR =
      Except.ok ⟨[epP], [epR], [epR]⟩ ∧ ([epP] : List Endpoint) ≠ [] := by
  refine ⟨by decide, by decide⟩

/-- C3 (amended): when no configured replica reports the Primary role, the
fused readwrite pool is left equal to the configured baseline readwrite pool
(the configured primary), not emptied. -/
theorem c3_amended (c : ConnectMonitorResponse) (op : Option PingMonitorResponse)
    (ro : ReadOnlyMonitorResponse) (orl : Option ReplicationLagMonitorResponse)
    (b v : ReadWriteEndpoint)
    (hs : ∀ e ∈ b.read, List.lookup e.addr ro.roles = some NodeRole.Slave)
    (hf : fuseSnapshots (some c) op (some ro) orl b = Except.ok v) :
    v.readwrite = b.readwrite := by
  simp only [fuseSnapshots] at hf
  cases hp : primaryLoop op (some ro) c.readwrite b with
  | error e => rw [hp] at hf; simp at hf
  | ok c1 =>
    rw [hp] at hf
    simp only at hf
    have hc1 : c1 = b := primaryLoop_allSlave op ro c.readwrite b c1 hs hp
    cases hr : readLoop b.read op orl c.read c1.read with
    | error e => rw [hr] at hf; simp at hf
    | ok rl =>
      rw [hr] at hf
      simp only at hf
      cases hf
      simp [hc1]

/-- C3 (witness): the amended theorem applied to the concrete
disconnected-primary, Slave-replica scenario. -/
theorem c3_witness : (⟨[epP], [epR], [epR]⟩ : ReadWriteEndpoint).readwrite = bPR.readwrite :=
  c3_amended connDiscR (some pingPR) roSlaveR (some rlFreshR) bPR ⟨[epP], [epR], [epR]⟩
    (by decide) (by decide)

/-- C4 (counterexample): with the primary disconnected and the two replicas
`a:3306` and `b:3306` both reporting the Primary role, the code promotes
`b:3306` (the last in configuration order), not the lexicographically
smallest address `a:3306` as claimed. -/
theorem c4_counterexample :
    fuseSnapshots (some connDiscOnly) (some pingEmpty) (some roBothMaster) (some rlEmpty)
        bAB = Except.ok ⟨[epB], [epA, epB], [epA, epB]⟩ ∧
    epA.addr = "a:3306" ∧ epB.addr = "b:3306" ∧ epA.addr ≠ epB.addr := by
  refine ⟨by decide, by decide, by decide, by decide⟩

theorem pingScanConnected_keepMaster (ro : ReadOnlyMonitorResponse) (m : Endpoint)
    (pl : List (String × PingStatus)) :
    ∀ curr r, lastMaster ro.roles curr.read = some m → curr.readwrite = [m] →
      pingScanConnected (some ro) pl curr = Except.ok r → r.readwrite = [m] := by
  induction pl with
  | nil =>
    intro curr r _ hw h
    simp only [pingScanConnected] at h
    cases h
    exact hw
  | cons hd rest ih =>
    obtain ⟨a, s⟩ := hd
    cases s with
    | PingOk =>
      intro curr r hm hw h
      simp only [pingScanConnected] at h
      exact ih curr r hm hw h
    | PingNotOk =>
      intro curr r hm hw h
      simp only [pingScanConnected] at h
      by_cases hl : 0 < curr.read.length
      · rw [if_pos hl] at h
        cases hp : promoteScan ro.roles curr.read curr.readwrite with
        | error e => rw [hp] at h; simp at h
        | ok w =>
          rw [hp] at h
          simp only at h
          have hweq : w = [m] := by
            have hq := promoteScan_ok_eq ro.roles curr.read curr.readwrite w hp
            rw [hm] at hq
            simpa using hq
          exact ih _ r (by simpa using hm) (by simpa using hweq) h
      · rw [if_neg hl] at h
        exact ih curr r hm hw h

theorem pingScanConnected_lastMaster (ro : ReadOnlyMonitorResponse) (m : Endpoint)
    (pl : List (String × PingStatus)) :
    ∀ curr r, lastMaster ro.roles curr.read = some m →
      (∃ a, (a, PingStatus.PingNotOk) ∈ pl) →
      pingScanConnected (some ro) pl curr = Except.ok r → r.readwrite = [m] := by
  induction pl with
  | nil =>
    intro curr r _ hex _
    obtain ⟨a, ha⟩ := hex
    simp at ha
  | cons hd rest ih =>
    obtain ⟨a0, s⟩ := hd
    cases s with
    | PingOk =>
      intro curr r hm hex h
      simp only [pingScanConnected] at h
      obtain ⟨a, ha⟩ := hex
      rcases List.mem_cons.mp ha with h1 | h2
      · simp at h1
      · exact ih curr r hm ⟨a, h2⟩ h
    | PingNotOk =>
      intro curr r hm _ h
      simp only [pingScanConnected] at h
      have hl : 0 < curr.read.length := by
        cases hread : curr.read with
        | nil => rw [hread] at hm; simp [lastMaster] at hm
        | cons y ys => simp [hread]
      rw [if_pos hl] at h
      cases hp : promoteScan ro.roles curr.read curr.readwrite with
      | error e => rw [hp] at h; simp at h
      | ok w =>
        rw [hp] at h
        simp only at h
        have hweq : w = [m] := by
          have hq := promoteScan_ok_eq ro.roles curr.read curr.readwrite w hp
          rw [hm] at hq
          simpa using hq
        exact pingScanConnected_keepMaster ro m rest _ r (by simpa using hm)
          (by simpa using hweq) h

/-- C4 (amended): when the connect snapshot reports the single configured
primary as bad - either Disconnected, or Connected while some readwrite ping
entry is PingNotOk - the replica chosen as the sole element of the fused
readwrite pool is the last one, in configuration (read-pool) order, whose
reported role is Master. -/
theorem c4_amended (c : ConnectMonitorResponse) (x : String) (op : Option PingMonitorResponse)
    (ro : ReadOnlyMonitorResponse) (orl : Option ReplicationLagMonitorResponse)
    (b v : ReadWriteEndpoint) (m : Endpoint)
    (hbad : c.readwrite = [(x, ConnectStatus.Disconnected)] ∨
      (∃ p a, op = some p ∧ c.readwrite = [(x, ConnectStatus.Connected)] ∧
        (a, PingStatus.PingNotOk) ∈ p.readwrite))
    (hm : lastMaster ro.roles b.read = some m)
    (hf : fuseSnapshots (some c) op (some ro) orl b = Except.ok v) :
    v.readwrite = [m] := by
  simp only [fuseSnapshots] at hf
  rcases hbad with hc | ⟨p, a, hop, hc, hmem⟩
  · rw [hc] at hf
    simp only [primaryLoop, disconnectedScan] at hf
    cases hps : promoteScan ro.roles b.read b.readwrite with
    | error e => rw [hps] at hf; simp at hf
    | ok w =>
      rw [hps] at hf
      simp only at hf
      have hw : w = [m] := by
        have hq := promoteScan_ok_eq ro.roles b.read b.readwrite w hps
        rw [hm] at hq
        simpa using hq
      cases hr : readLoop b.read op orl c.read
          ({ b with readwrite := w } : ReadWriteEndpoint).read with
      | error e => rw [hr] at hf; simp at hf
      | ok rl =>
        rw [hr] at hf
        simp only at hf
        cases hf
        simpa using hw
  · subst hop
    rw [hc] at hf
    simp only [primaryLoop] at hf
    cases hps : pingScanConnected (some ro) p.readwrite b with
    | error e => rw [hps] at hf; simp at hf
    | ok c2 =>
      rw [hps] at hf
      simp only at hf
      have hc2 : c2.readwrite = [m] :=
        pingScanConnected_lastMaster ro m p.readwrite b c2 hm ⟨a, hmem⟩ hps
      cases hr : readLoop b.read (some p) orl c.read c2.read with
      | error e => rw [hr] at hf; simp at hf
      | ok rl =>
        rw [hr] at hf
        simp only at hf
        cases hf
        simpa using hc2

/-- C4 (witness): the amended theorem applied to a concrete two-Master
scenario of the Ping=NotOk flavor (primary connected, ping failing); the
last configured replica is the promoted one. -/
theorem c4_witness : (⟨[epB], [epA, epB], [epA, epB]⟩ : ReadWriteEndpoint).readwrite = [epB] :=
  c4_amended connPingBad "p:3306" (some pingBadP) roBothMaster (some rlEmpty) bAB
    ⟨[epB], [epA, epB], [epA, epB]⟩ epB
    (Or.inr ⟨pingBadP, "p:3306", rfl, by decide, by decide⟩)
    (by decide) (by decide)

/-- C5 (code bug): on the spec's own lagging-replica scenario (primary and
both replicas connected and pinging Ok, replica `r2:3306` over the lag
threshold) the claim expects the read pool `[r1]`; the code instead panics:
the removal index is computed against the immutable baseline read list but
applied to the shrinking working list, and the lag scan is re-run for every
Ok ping entry, so the second pass removes index 1 from a one-element vector
(`Vec::remove` out of bounds). -/
theorem c5_bug_theorem :
    fuseSnapshots (some connHealthy12) (some pingHealthy12) (some roSlave12) (some rlLagR2)
      bR12 = Except.error FuseError.indexOutOfBounds := by decide

/-- C6 (counterexample): reading `monitors_len` messages per tick does not
guarantee that one snapshot of each kind has been received: a first batch of
four ping snapshots leaves the connect option empty and the fusion panics on
its unwrap, so the claimed safety property fails. -/
theorem c6_counterexample :
    reportLoop bPR 4 false 1 st0 bPR msgsAllPing =
      ⟨[], 0, some (LoopExit.fuseFailure FuseError.missingSnapshot)⟩ := by decide

theorem noMS_error_ne {α : Type} (e : FuseError)
    (h : noMissingSnapshot (Except.error e : Except FuseError α) = true) :
    e ≠ FuseError.missingSnapshot := by
  intro hcontra
  subst hcontra
  simp [noMissingSnapshot] at h

theorem fuseSnapshots_some_error_ne (c : ConnectMonitorResponse) (p : PingMonitorResponse)
    (ro : ReadOnlyMonitorResponse) (rl : ReplicationLagMonitorResponse)
    (b : ReadWriteEndpoint) (e : FuseError)
    (hf : fuseSnapshots (some c) (some p) (some ro) (some rl) b = Except.error e) :
    e ≠ FuseError.missingSnapshot := by
  simp only [fuseSnapshots] at hf
  cases hp : primaryLoop (some p) (some ro) c.readwrite b with
  | error e2 =>
    rw [hp] at hf
    simp only at hf
    cases hf
    have hm := primaryLoop_noMS p ro c.readwrite b
    rw [hp] at hm
    exact noMS_error_ne _ hm
  | ok c1 =>
    rw [hp] at hf
    simp only at hf
    cases hr : readLoop b.read (some p) (some rl) c.read c1.read with
    | error e2 =>
      rw [hr] at hf
      simp only at hf
      cases hf
      have hm := readLoop_noMS b.read (some p) (some rl) c.read c1.read
      rw [hr] at hm
      exact noMS_error_ne _ hm
    | ok rl2 =>
      rw [hr] at hf
      simp at hf

/-- C6 (amended): the per-tick batch can repeat kinds, so presence of all
kinds is not guaranteed by the receive loop; however, once a snapshot of
every kind has been received at least once (the per-kind options persist
across ticks), the fusion never fails at an unwrap of a missing per-kind
snapshot option. -/
theorem c6_amended (c : ConnectMonitorResponse) (p : PingMonitorResponse)
    (ro : ReadOnlyMonitorResponse) (rl : ReplicationLagMonitorResponse)
    (b : ReadWriteEndpoint) :
    noMissingSnapshot (fuseSnapshots (some c) (some p) (some ro) (some rl) b) = true := by
  cases hf : fuseSnapshots (some c) (some p) (some ro) (some rl) b with
  | ok v => rfl
  | error e =>
    have hne := fuseSnapshots_some_error_ne c p ro rl b e hf
    cases e with
    | missingSnapshot => exact absurd rfl hne
    | missingRole => rfl
    | missingPosition => rfl
    | indexOutOfBounds => rfl

/-- C7 (counterexample): an address the reconciler consults that is absent
from the ReadOnly snapshot's roles map does not yield "no information": with
the primary disconnected and the roles map empty, the fusion panics at
`roles.get(..).unwrap()` instead of completing normally. -/
theorem c7_counterexample :
    fuseSnapshots (some connDiscR) (some pingPR) (some roEmpty) (some rlFreshR) bPR =
      Except.error FuseError.missingRole := by decide

/-- C7 (amended): an address absent from the Connect snapshot's sub-maps is
simply not acted upon (the baseline decision is preserved and the fusion
completes normally) - with both connect sub-maps empty the fusion returns the
baseline unchanged - but a configured replica missing from the ReadOnly
roles map makes the failover path panic rather than complete (see the
counterexample). -/
theorem c7_amended (op : Option PingMonitorResponse) (oro : Option ReadOnlyMonitorResponse)
    (orl : Option ReplicationLagMonitorResponse) (b : ReadWriteEndpoint) :
    fuseSnapshots (some ⟨[], []⟩) op oro orl b = Except.ok b := rfl

/-- C8 (counterexample): a closed reconciler-to-router channel does not stop
the loop: in a two-tick run whose first tick attempts a send (as the open
channel run shows by delivering one value), the closed-channel run still
completes both ticks and is still alive. -/
theorem c8_counterexample :
    reportLoop bPR 4 true 2 st0 bPR (msgsReadDisc ++ msgsReadDisc) = ⟨[], 2, none⟩ ∧
    reportLoop bPR 4 false 2 st0 bPR (msgsReadDisc ++ msgsReadDisc) =
      ⟨[fusedReadDisc], 2, none⟩ := by
  refine ⟨by decide, by decide⟩

/-- C8 (amended): only the monitor-to-reconciler channel closing is fatal:
when the stream cannot supply a full batch the loop stops at the
`recv().unwrap()` panic with no further ticks; a closed reconciler-to-router
channel is merely logged, and the number of completed ticks and the exit
reason are the same as with an open channel. -/
theorem c8_amended :
    (∀ (b : ReadWriteEndpoint) (mlen : Nat) (sC : Bool) (fuel : Nat) (st : RecvState)
        (pre : ReadWriteEndpoint) (stream : List MonitorResponse),
        stream.length < mlen →
        reportLoop b mlen sC (fuel + 1) st pre stream = ⟨[], 0, some LoopExit.recvClosed⟩) ∧
    (∀ (b : ReadWriteEndpoint) (mlen : Nat) (fuel : Nat) (st : RecvState)
        (pre : ReadWriteEndpoint) (stream : List MonitorResponse),
        (reportLoop b mlen true fuel st pre stream).ticks =
          (reportLoop b mlen false fuel st pre stream).ticks ∧
        (reportLoop b mlen true fuel st pre stream).exit =
          (reportLoop b mlen false fuel st pre stream).exit) := by
  constructor
  · intro b mlen sC fuel st pre stream h
    simp only [reportLoop]
    rw [if_neg (not_le.mpr h)]
  · intro b mlen fuel
    induction fuel with
    | zero => intro st pre stream; exact ⟨rfl, rfl⟩
    | succ n ih =>
      intro st pre stream
      simp only [reportLoop]
      by_cases hlen : mlen ≤ stream.length
      · rw [if_pos hlen, if_pos hlen]
        cases hf : fuseState (recvBatch st (stream.take mlen)) b with
        | error e => exact ⟨rfl, rfl⟩
        | ok curr =>
          have h2 := ih (recvBatch st (stream.take mlen)) curr (stream.drop mlen)
          constructor
          · show (tickOutcome true pre curr
              (reportLoop b mlen true n (recvBatch st (stream.take mlen)) curr
                (stream.drop mlen))).ticks =
              (tickOutcome false pre curr
                (reportLoop b mlen false n (recvBatch st (stream.take mlen)) curr
                  (stream.drop mlen))).ticks
            simp only [tickOutcome]
            rw [h2.1]
          · show (tickOutcome true pre curr
              (reportLoop b mlen true n (recvBatch st (stream.take mlen)) curr
                (stream.drop mlen))).exit =
              (tickOutcome false pre curr
                (reportLoop b mlen false n (recvBatch st (stream.take mlen)) curr
                  (stream.drop mlen))).exit
            simp only [tickOutcome]
            exact h2.2
      · rw [if_neg hlen, if_neg hlen]
        exact ⟨rfl, rfl⟩

/-- C8 (witness): the fatal clause applied to an empty stream. -/
theorem c8_witness :
    reportLoop bPR 4 false 1 st0 bPR [] = ⟨[], 0, some LoopExit.recvClosed⟩ :=
  c8_amended.1 bPR 4 false 0 st0 bPR [] (by decide)

/-- C9: reconciliation never changes the `read_only` field: every
successfully fused endpoint, and every value delivered on the output
channel, carries the `read_only` field of the configured baseline; only
`readwrite` and `read` are recomputed. -/
theorem c9_theorem :
    (∀ (oc : Option ConnectMonitorResponse) (op : Option PingMonitorResponse)
        (oro : Option ReadOnlyMonitorResponse) (orl : Option ReplicationLagMonitorResponse)
        (b v : ReadWriteEndpoint),
        fuseSnapshots oc op oro orl b = Except.ok v → v.read_only = b.read_only) ∧
    (∀ (b : ReadWriteEndpoint) (mlen : Nat) (sC : Bool) (fuel : Nat) (st : RecvState)
        (pre : ReadWriteEndpoint) (stream : List MonitorResponse) (v : ReadWriteEndpoint),
        v ∈ (reportLoop b mlen sC fuel st pre stream).sent → v.read_only = b.read_only) := by
  refine ⟨fun oc op oro orl b v h => fuseSnapshots_ok_read_only oc op oro orl b v h, ?_⟩
  intro b mlen sC fuel
  induction fuel with
  | zero => intro st pre stream v hv; simp [reportLoop] at hv
  | succ n ih =>
    intro st pre stream v hv
    simp only [reportLoop] at hv
    by_cases hlen : mlen ≤ stream.length
    · rw [if_pos hlen] at hv
      cases hf : fuseState (recvBatch st (stream.take mlen)) b with
      | error e => rw [hf] at hv; simp at hv
      | ok curr =>
        rw [hf] at hv
        simp only [tickOutcome] at hv
        have hcurr : curr.read_only = b.read_only :=
          fuseSnapshots_ok_read_only _ _ _ _ b curr hf
        by_cases hcond : pre ≠ curr ∧ sC = false
        · rw [if_pos hcond] at hv
          rcases List.mem_cons.mp hv with h1 | h2
          · rw [h1]; exact hcurr
          · exact ih _ _ _ v h2
        · rw [if_neg hcond] at hv
          exact ih _ _ _ v hv
    · rw [if_neg hlen] at hv
      simp at hv

/-- C9 (witness): the fused-value clause applied to the concrete promotion
scenario. -/
theorem c9_witness : fusedPromote.read_only = bPR.read_only :=
  c9_theorem.1 (some connDiscR) (some pingPR) (some roMasterR) (some rlFreshR) bPR
    fusedPromote (by decide)

/-- C10: the Rust `derive(Default)` instance of `MasterHighAvailability`
yields empty user and password strings and zero for every numeric field;
the documented defaults (periods 1000, timeouts 6000, thresholds 1, max lag
10000) are produced only by deserialization when a field is omitted, not by
`Default::default()`. -/
theorem c10_theorem :
    MasterHighAvailability.rustDefault =
      ⟨"", "", 0, 0, 0, 0, 0, 0, 0, 0, 0, 0, 0, 0, 0, 0⟩ ∧
    (∀ u pw : String,
      deserializeMha ⟨some u, some pw, none, none, none, none, none, none, none, none,
          none, none, none, none, none, none⟩ =
        some ⟨u, pw, 1000, 1000, 6000, 1, 1000, 6000, 1, 1000, 6000, 1, 10000, 1000,
          6000, 1⟩) ∧
    MasterHighAvailability.rustDefault.monitor_period ≠ default_monitor_period := by
  refine ⟨rfl, fun u pw => rfl, by decide⟩

/-- C6 (witness): the amended theorem applied to the concrete promotion
snapshots. -/
theorem c6_witness :
    noMissingSnapshot (fuseSnapshots (some connDiscR) (some pingPR) (some roMasterR)
      (some rlFreshR) bPR) = true :=
  c6_amended connDiscR pingPR roMasterR rlFreshR bPR

/-- C7 (witness): the amended theorem applied to a concrete baseline. -/
theorem c7_witness :
    fuseSnapshots (some ⟨[], []⟩) (some pingPR) (some roSlaveR) (some rlFreshR) bPR =
      Except.ok bPR :=
  c7_amended (some pingPR) (some roSlaveR) (some rlFreshR) bPR

/-- C10 (witness): the deserialization clause applied to concrete
credentials. -/
theorem c10_witness :
    deserializeMha ⟨some "user1", some "pw1", none, none, none, none, none, none, none,
        none, none, none, none, none, none, none⟩ =
      some ⟨"user1", "pw1", 1000, 1000, 6000, 1, 1000, 6000, 1, 1000, 6000, 1, 10000,
        1000, 6000, 1⟩ :=
  c10_theorem.2.1 "user1" "pw1"

end Pisa
